import Mathlib

/-!
Verification of the webhook-bridge core of the repository: the pending-call
correlation store, the dispatch-with-retry engine, the correlation/resume
protocol, the cleanup sweeper, the busy check of the `/ask` handler and the
HTTP-boundary validator.  Each definition is a shallow embedding of the
corresponding JavaScript function; JavaScript `Map` objects become
association lists, mutation becomes explicit state passing, thrown
exceptions become `Except.error`, and `Date.now()` timestamps become `Int`
parameters.
-/

namespace Bridge

/-! ### JavaScript string primitives

`String.prototype.trim`, `String.prototype.includes`,
`String.prototype.substring` and `Array.prototype.join` as used by the
source. Strings are modelled as their character lists (JS counts UTF-16
units, Lean counts characters; the claims under study are insensitive to
the difference). -/

/-- The whitespace class removed by `String.prototype.trim`. -/
def isJsWs (c : Char) : Bool :=
  c == ' ' || c == '\t' || c == '\n' || c == '\r' || c == '\x0b' || c == '\x0c'

/-- `trim` on character lists: drop whitespace from both ends. -/
def trimChars (l : List Char) : List Char :=
  ((l.dropWhile isJsWs).reverse.dropWhile isJsWs).reverse

/-- JavaScript `s.trim()`. -/
def jsTrim (s : String) : String :=
  ⟨trimChars s.data⟩

/-- JavaScript `s.substring(0, n)` (also `s.slice(0, n)` semantics for `n ≥ 0`). -/
def jsTake (s : String) (n : Nat) : String :=
  ⟨s.data.take n⟩

/-- Whether `p` is a prefix of `l` (character lists). -/
def listHasPrefix : List Char → List Char → Bool
  | _, [] => true
  | [], _ :: _ => false
  | c :: cs, p :: ps => c == p && listHasPrefix cs ps

/-- Whether `p` occurs as a contiguous sublist of `l`. -/
def listContainsSub : List Char → List Char → Bool
  | [], p => p.isEmpty
  | c :: cs, p => listHasPrefix (c :: cs) p || listContainsSub cs p

/-- JavaScript `s.includes(sub)`. -/
def jsIncludes (s sub : String) : Bool :=
  listContainsSub s.data sub.data

/-- `Array.prototype.join(sep)`. -/
def joinSep (sep : String) : List String → String
  | [] => ""
  | [x] => x
  | x :: y :: rest => x ++ sep ++ joinSep sep (y :: rest)

/-- A run of `n` spaces (JSON.stringify indentation). -/
def pad (n : Nat) : String :=
  ⟨List.replicate n ' '⟩

/-- Decimal digit character. -/
def digitChar (n : Nat) : Char :=
  Char.ofNat (48 + n)

/-- Decimal digits of a natural number, most significant first (fuelled). -/
def natDigitsAux : Nat → Nat → List Char
  | 0, _ => []
  | fuel + 1, n =>
    if n < 10 then [digitChar n]
    else natDigitsAux fuel (n / 10) ++ [digitChar (n % 10)]

/-- Decimal digits of a natural number. -/
def natDigits (n : Nat) : List Char :=
  natDigitsAux (n + 1) n

/-- JavaScript `String(n)` for an integer number. -/
def jsIntToString (n : Int) : String :=
  if n < 0 then ⟨'-' :: natDigits n.natAbs⟩ else ⟨natDigits n.toNat⟩

end Bridge

/-! ### JSON values and `JSON.stringify(v, null, 2)` -/

/-- JSON values (numbers restricted to integers). -/
inductive Json where
  | null : Json
  | bool (b : Bool) : Json
  | num (n : Int) : Json
  | str (s : String) : Json
  | arr (items : List Json) : Json
  | obj (fields : List (String × Json)) : Json
deriving Inhabited

namespace Bridge

/-- One character of a JSON-escaped string body. -/
def escapeJsonChar (c : Char) : List Char :=
  if c = '"' then ['\\', '"']
  else if c = '\\' then ['\\', '\\']
  else if c = '\n' then ['\\', 'n']
  else if c = '\t' then ['\\', 't']
  else if c = '\r' then ['\\', 'r']
  else [c]

/-- JSON string literal: body escaped, wrapped in double quotes. -/
def escapeJsonString (s : String) : String :=
  ⟨'"' :: ((s.data.map escapeJsonChar).flatten ++ ['"'])⟩

/-- `JSON.stringify(j, null, 2)` at current indentation `ind`. -/
def prettyJson (ind : Nat) : Json → String
  | .null => "null"
  | .bool true => "true"
  | .bool false => "false"
  | .num n => jsIntToString n
  | .str s => escapeJsonString s
  | .arr [] => "[]"
  | .arr (x :: xs) =>
      ("[\n" ++
        joinSep ",\n"
          (((x :: xs).attach).map (fun y => pad (ind + 2) ++ prettyJson (ind + 2) y.1)) ++
        "\n" ++ pad ind) ++ "]"
  | .obj [] => "\x7b\x7d"
  | .obj (f :: fs) =>
      ("\x7b\n" ++
        joinSep ",\n"
          (((f :: fs).attach).map
            (fun y => pad (ind + 2) ++ escapeJsonString y.1.1 ++ ": " ++
              prettyJson (ind + 2) y.1.2)) ++
        "\n" ++ pad ind) ++ "\x7d"
  termination_by j => sizeOf j
  decreasing_by
  · have := List.sizeOf_lt_of_mem y.2
    simp only [Json.arr.sizeOf_spec] at *
    omega
  · have h1 := List.sizeOf_lt_of_mem y.2
    have h2 : sizeOf y.1.2 < sizeOf y.1 := by
      obtain ⟨a, b⟩ := y.1
      simp only [Prod.mk.sizeOf_spec]
      omega
    simp only [Json.obj.sizeOf_spec] at *
    omega

end Bridge

/-! ### JavaScript values at the webhook boundary

`typeof`-style dispatch and truthiness for the values that can appear in a
webhook-response body. -/

/-- A JavaScript value as it can appear in a parsed request body. -/
inductive JsValue where
  | undefined : JsValue
  | null : JsValue
  | bool (b : Bool) : JsValue
  | num (n : Int) : JsValue
  | str (s : String) : JsValue
  | arr (items : List Json) : JsValue
  | obj (fields : List (String × Json)) : JsValue
deriving Inhabited

namespace Bridge

/-- JavaScript falsiness: `undefined`, `null`, `false`, `0` and `""` are falsy. -/
def jsFalsy : JsValue → Bool
  | .undefined => true
  | .null => true
  | .bool b => !b
  | .num n => n == 0
  | .str s => s == ""
  | .arr _ => false
  | .obj _ => false

/-- `typeof v === 'string'`. -/
def jsIsString : JsValue → Bool
  | .str _ => true
  | _ => false

end Bridge

/-- The string payload of a `JsValue`; the code only reads these fields after
validation has established that they are strings. -/
def JsValue.asStr : JsValue → String
  | .str s => s
  | _ => ""

namespace Bridge

/-! ### Configuration (`src/config/index.js`)

The static `config.employees` table. -/

/-- One AI-employee configuration entry. -/
structure Employee where
  assistantId : String
  name : String
  role : String
  specialty : String
  webhookUrl : String
deriving Repr, DecidableEq

/-- `config.employees` from `src/config/index.js`. -/
def employees : List (String × Employee) :=
  [("brenden",
    { assistantId := "asst_MvlMZ3IOvQrTkbsENRSzGRwZ"
      name := "AI Brenden"
      role := "lead scraper"
      specialty := "Lead Research Specialist"
      webhookUrl := "https://hook.eu2.make.com/lxa5qab0magprieff0sujnfkfycwu9x7" }),
   ("van",
    { assistantId := "asst_x0WhKHr61IUopNPR7A8No9kK"
      name := "AI Van"
      role := "page operator"
      specialty := "Digital Marketing Designer"
      webhookUrl := "https://hook.eu2.make.com/6e1mvvrxjd2dm5mbdvlgmxc2sut3r3lk" }),
   ("angel",
    { assistantId := "asst_angel_placeholder"
      name := "AI Angel"
      role := "voice caller"
      specialty := "Voice Outreach Manager"
      webhookUrl := "https://hook.eu2.make.com/angel_webhook_placeholder" })]

/-! ### The pending-call store (`WebhookHandler.pendingCalls`)

The JavaScript `Map` keyed by tool-call id, as an association list with
unique keys maintained by `mapSet`/`mapDelete`. -/

/-- The outbound payload built by `sendToolCalls` (also stored inside the
pending call for later inspection). -/
structure WebhookPayload where
  tool_call_id : String
  function_name : String
  arguments : Json
  thread_id : String
  run_id : String
  employee_id : String
  employee_name : String
  employee_role : String
  timestamp : String
  retry_count : Nat
deriving Inhabited

/-- One entry of the pending-call store.  `status = none` models the absence
of the `status` field on freshly created entries (displayed as `pending`);
the dispatch engine later sets `"failed"`, the correlation protocol
`"processed"`. -/
structure PendingCall where
  threadId : String
  runId : String
  employeeId : String
  functionName : String
  timestamp : Int
  arguments : Json
  retryCount : Nat
  webhookUrl : String
  payload : WebhookPayload
  status : Option String := none
  lastError : Option String := none
  lastAttempt : Option String := none
  finalError : Option String := none
  failedAt : Option String := none
  processedAt : Option String := none
deriving Inhabited

/-- The pending-call store: `Map` from tool-call id to entry. -/
abbrev Store := List (String × PendingCall)

/-- `Map.prototype.get`. -/
def mapGet (store : Store) (k : String) : Option PendingCall :=
  match store with
  | [] => none
  | (k', v) :: rest => if k' = k then some v else mapGet rest k

/-- `Map.prototype.set`: overwrite in place or append. -/
def mapSet (store : Store) (k : String) (v : PendingCall) : Store :=
  match store with
  | [] => [(k, v)]
  | (k', v') :: rest =>
    if k' = k then (k, v) :: rest else (k', v') :: mapSet rest k v

/-- `Map.prototype.delete`. -/
def mapDelete (store : Store) (k : String) : Store :=
  match store with
  | [] => []
  | (k', v') :: rest =>
    if k' = k then rest else (k', v') :: mapDelete rest k

end Bridge

namespace Bridge

/-! ### Output normalization (`processWebhookResponse`, lines 280-312)

`typeof`-dispatch on the output value, emptiness check, 100000-character
truncation with an explicit marker. -/

/-- The literal appended on truncation. -/
def truncMarker : String := "\n\n[Output truncated due to size limit]"

/-- The size threshold (`processedOutput.length > 100000`). -/
def outputLimit : Nat := 100000

/-- The `typeof`-dispatch that converts `output` to a string.  `none` models
the `undefined` result of `JSON.stringify(undefined)` (the subsequent
emptiness check then throws).  `typeof null` is `'object'`, so `null`
stringifies to `"null"` — unreachable behind validation, modelled anyway. -/
def processOutputRaw : JsValue → Option String
  | .arr xs => some (prettyJson 0 (.arr xs))
  | .obj fs => some (prettyJson 0 (.obj fs))
  | .null => some (prettyJson 0 .null)
  | .str s => some (jsTrim s)
  | .num n => some (jsIntToString n)
  | .bool true => some "true"
  | .bool false => some "false"
  | .undefined => none

/-- Output processing: stringify, reject empty, truncate oversize.  The
`Except.error` payload is the message of the exception thrown inside the
`try` block (re-wrapped by the caller). -/
def processOutput (v : JsValue) : Except String String :=
  match processOutputRaw v with
  | none => .error "Processed output is empty"
  | some po =>
    if po == "" || jsTrim po == "" then .error "Processed output is empty"
    else .ok (if outputLimit < po.length then jsTake po outputLimit ++ truncMarker else po)

/-! ### The correlation protocol (`processWebhookResponse`, lines 243-391) -/

/-- A parsed webhook-response body: the four destructured fields. -/
structure ResponseData where
  tool_call_id : JsValue
  output : JsValue
  thread_id : JsValue
  run_id : JsValue
deriving Inhabited

/-- The accumulated validation errors (lines 254-270). -/
def validationErrorsOf (d : ResponseData) : List String :=
  (if jsFalsy d.tool_call_id || !jsIsString d.tool_call_id then
      ["tool_call_id must be a non-empty string"] else []) ++
  (if d.output matches .undefined then ["output cannot be undefined or null"]
   else if d.output matches .null then ["output cannot be undefined or null"] else []) ++
  (if jsFalsy d.thread_id || !jsIsString d.thread_id then
      ["thread_id must be a non-empty string"] else []) ++
  (if jsFalsy d.run_id || !jsIsString d.run_id then
      ["run_id must be a non-empty string"] else [])

/-- `employee_name` of the processed response when a pending call was found:
`pendingCall?.employeeId ? config.employees[pendingCall.employeeId]?.name :
'unknown'`.  `none` models JavaScript `undefined`. -/
def employeeNameOf (eid : String) : Option String :=
  if eid = "" then some "unknown" else (employees.lookup eid).map Employee.name

/-- The structured outcome returned on success. -/
structure ProcessedResponse where
  tool_call_id : String
  output : String
  thread_id : String
  run_id : String
  employee_id : String
  employee_name : Option String
  processed_at : String
  output_size : Nat
  validation_passed : Bool := true
deriving Inhabited

/-- Result of one `processWebhookResponse` call: the store after the call,
the warning-level log signals emitted, and the returned value or the thrown
exception. -/
structure ProcOutcome where
  store : Store
  warnings : List String
  result : Except String ProcessedResponse
deriving Inhabited

/-- `processWebhookResponse(responseData)` (lines 243-391).  State passing
replaces mutation of `this.pendingCalls`; `nowIso` stands for
`new Date().toISOString()` at processing time.  On a matched correlation the
code marks the entry `processed` and immediately deletes it, so the net
store effect is the deletion. -/
def processWebhookResponse (store : Store) (nowIso : String) (d : ResponseData) :
    ProcOutcome :=
  let errs := validationErrorsOf d
  if errs ≠ [] then
    ⟨store, [], .error ("Webhook response validation failed: " ++ joinSep ", " errs)⟩
  else
    match processOutput d.output with
    | .error m => ⟨store, [], .error ("Invalid output format: " ++ m)⟩
    | .ok po =>
      let id := d.tool_call_id.asStr
      let tid := d.thread_id.asStr
      let rid := d.run_id.asStr
      match mapGet store id with
      | none =>
        ⟨store,
         ["No pending tool call found for ID: " ++ id,
          "Processing webhook response without pending call validation"],
         .ok { tool_call_id := id, output := po, thread_id := tid, run_id := rid
               employee_id := "unknown", employee_name := some "unknown"
               processed_at := nowIso, output_size := po.length }⟩
      | some pc =>
        if pc.threadId ≠ tid then
          ⟨store, [],
           .error ("Thread ID mismatch! Expected: " ++ pc.threadId ++ ", Received: " ++ tid)⟩
        else if pc.runId ≠ rid then
          ⟨store, [],
           .error ("Run ID mismatch! Expected: " ++ pc.runId ++ ", Received: " ++ rid)⟩
        else
          ⟨mapDelete store id, [],
           .ok { tool_call_id := id, output := po, thread_id := tid, run_id := rid
                 employee_id := pc.employeeId, employee_name := employeeNameOf pc.employeeId
                 processed_at := nowIso, output_size := po.length }⟩

/-! ### The HTTP-boundary validator (`validateWebhookResponse`,
`src/middleware/validation.js` lines 126-154) and the `/webhook-response`
route composition. -/

/-- An HTTP error response: status code and `error` field. -/
structure HttpError where
  status : Nat
  error : String
deriving Repr, DecidableEq

/-- `validateWebhookResponse` middleware: `none` means `next()` was called. -/
def validateWebhookResponse (d : ResponseData) : Option HttpError :=
  let missing :=
    [("tool_call_id", d.tool_call_id), ("output", d.output),
     ("thread_id", d.thread_id), ("run_id", d.run_id)].filter (fun p => jsFalsy p.2)
  if missing.length > 0 then some ⟨400, "Missing required fields"⟩
  else if !jsIsString d.tool_call_id || !jsIsString d.thread_id || !jsIsString d.run_id then
    some ⟨400, "Invalid field types"⟩
  else none

/-- The `/webhook-response` route up to and including correlation: the
validator middleware runs first; only if it calls `next()` does the handler
invoke `processWebhookResponse` (the handler retries the call up to three
times, but the function is deterministic, so one call captures the result). -/
def webhookResponseEndpoint (store : Store) (nowIso : String) (d : ResponseData) :
    Except HttpError ProcOutcome :=
  match validateWebhookResponse d with
  | some e => .error e
  | none => .ok (processWebhookResponse store nowIso d)

/-! ### The cleanup sweeper (`cleanupPendingCalls`, lines 439-466) -/

/-- Milliseconds in two hours. -/
def twoHoursMs : Int := 2 * 60 * 60 * 1000

/-- Milliseconds in one day. -/
def oneDayMs : Int := 24 * 60 * 60 * 1000

/-- Whether one sweep at time `now` keeps an entry: kept unless it is older
than a day, or `failed` and older than two hours. -/
def sweepKeeps (now : Int) (pc : PendingCall) : Bool :=
  if pc.timestamp < now - oneDayMs then false
  else if pc.timestamp < now - twoHoursMs && pc.status == some "failed" then false
  else true

/-- `cleanupPendingCalls()` at time `now`: delete-during-iteration over the
`Map` is a filter. -/
def cleanupPendingCalls (now : Int) (store : Store) : Store :=
  store.filter (fun e => sweepKeeps now e.2)

end Bridge

namespace Bridge

/-! ### The dispatch engine (`sendToolCalls` / `sendWebhookWithRetry`,
lines 23-238)

The external HTTP send is an oracle `send : Nat → SendOutcome` giving, for
each attempt number, what `axios.post` did.  `validateStatus: status < 500`
means a 4xx resolves (and the code then throws on `status >= 400`) while a
network error or 5xx rejects with its own message. -/

/-- Outcome of one `axios.post`: resolved with a status and body, or
rejected with an error message. -/
inductive SendOutcome where
  | resp (status : Nat) (data : String) : SendOutcome
  | err (msg : String) : SendOutcome
deriving Repr, DecidableEq

/-- `this.retryAttempts` (constructor, line 8). -/
def retryAttempts : Nat := 5

/-- `this.retryDelay` in milliseconds (constructor, line 9). -/
def retryDelay : Nat := 2000

/-- `this.maxRetryDelay` in milliseconds (constructor, line 10). -/
def maxRetryDelay : Nat := 10000

/-- `Math.min(retryDelay * Math.pow(2, attempt - 1), maxRetryDelay)`
(lines 133 and 203). -/
def backoffDelay (base maxD attempt : Nat) : Nat :=
  Nat.min (base * 2 ^ (attempt - 1)) maxD

/-- The successful per-call record (status `sent`, lines 177-186). -/
structure SendResult where
  toolCallId : String
  employeeId : String
  employeeName : String
  webhookUrl : String
  response : String
  attempt : Nat
deriving Repr, DecidableEq

/-- Result of one `sendWebhookWithRetry` call: the store after all attempts,
the backoff delays actually waited, and the returned record or the thrown
exception. -/
structure RetryOutcome where
  store : Store
  waits : List Nat
  result : Except String SendResult
deriving Inhabited

/-- Retry bookkeeping before waiting (lines 207-212): mutate `retryCount`,
`lastError`, `lastAttempt` on the stored entry, if present. -/
def recordRetry (store : Store) (id : String) (attempt : Nat) (msg nowIso : String) :
    Store :=
  match mapGet store id with
  | none => store
  | some pc =>
    mapSet store id
      { pc with retryCount := attempt, lastError := some msg, lastAttempt := some nowIso }

/-- Final-failure bookkeeping (lines 228-233): set `status = 'failed'`,
`finalError`, `failedAt` on the stored entry, if present — the entry is not
deleted. -/
def recordFinalFailure (store : Store) (id : String) (msg nowIso : String) : Store :=
  match mapGet store id with
  | none => store
  | some pc =>
    mapSet store id
      { pc with status := some "failed", finalError := some msg, failedAt := some nowIso }

/-- `sendWebhookWithRetry(payload, webhookUrl, attempt)` (lines 125-238).
A resolved response with `status >= 400` throws inside the `try`; any thrown
error reaches the `catch`, which either records retry metadata, waits the
computed backoff delay and recurses with `attempt + 1`, or — with attempts
exhausted — marks the entry failed and rethrows. -/
def sendWebhookWithRetry (send : Nat → SendOutcome) (store : Store)
    (p : WebhookPayload) (url nowIso : String) (attempt : Nat) : RetryOutcome :=
  match send attempt with
  | .resp status data =>
    if 400 ≤ status then
      if _h : attempt < retryAttempts then
        let msg := "Webhook returned " ++ toString status ++ ": " ++ data
        let store1 := recordRetry store p.tool_call_id attempt msg nowIso
        let rest := sendWebhookWithRetry send store1 p url nowIso (attempt + 1)
        ⟨rest.store, backoffDelay retryDelay maxRetryDelay attempt :: rest.waits, rest.result⟩
      else
        let msg := "Webhook returned " ++ toString status ++ ": " ++ data
        ⟨recordFinalFailure store p.tool_call_id msg nowIso, [],
         .error (p.employee_name ++ " webhook failed after " ++ toString retryAttempts ++
           " attempts: " ++ msg)⟩
    else
      ⟨store, [], .ok ⟨p.tool_call_id, p.employee_id, p.employee_name, url, data, attempt⟩⟩
  | .err m =>
    if _h : attempt < retryAttempts then
      let store1 := recordRetry store p.tool_call_id attempt m nowIso
      let rest := sendWebhookWithRetry send store1 p url nowIso (attempt + 1)
      ⟨rest.store, backoffDelay retryDelay maxRetryDelay attempt :: rest.waits, rest.result⟩
    else
      ⟨recordFinalFailure store p.tool_call_id m nowIso, [],
       .error (p.employee_name ++ " webhook failed after " ++ toString retryAttempts ++
         " attempts: " ++ m)⟩
  termination_by retryAttempts + 1 - attempt

/-- `getWebhookUrlForEmployee(employeeId)` (lines 23-34). -/
def getWebhookUrlForEmployee (employeeId : String) : Except String String :=
  match employees.lookup employeeId with
  | none => .error ("Employee \x27" ++ employeeId ++ "\x27 not found in configuration")
  | some emp =>
    if emp.webhookUrl == "" || jsIncludes emp.webhookUrl "placeholder" then
      .error ("Webhook URL not configured for employee \x27" ++ emp.name ++ "\x27")
    else .ok emp.webhookUrl

/-- One requested tool call, as handed to `sendToolCalls`.  `argumentsJson`
is the outcome of `JSON.parse(toolCall.function.arguments)` (`Except.error`:
the parse throws with that message). -/
structure ToolCall where
  id : String
  functionName : String
  argumentsJson : Except String Json
deriving Inhabited

/-- Per-call dispatch record: `status: 'sent'` with the response echo, or
`status: 'error'` with the reason (lines 99 and 106-112). -/
inductive CallResult where
  | sent (r : SendResult) : CallResult
  | error (toolCallId employeeId errMsg : String) (retryable : Bool) : CallResult
deriving Repr, DecidableEq

/-- The `toolCallId` of a per-call record. -/
def callResultId : CallResult → String
  | .sent r => r.toolCallId
  | .error id _ _ _ => id

/-- The record pushed for one tool call (lines 98-112): the successful
`sendWebhookWithRetry` result, or the `catch` block's error record. -/
def dispatchRecord (tcId eid : String) (res : Except String SendResult) : CallResult :=
  match res with
  | .ok sr => CallResult.sent sr
  | .error m => CallResult.error tcId eid m true

/-- The per-call loop of `sendToolCalls` (lines 62-114).  Each iteration is
wrapped in `try/catch`: a JSON-parse failure of the arguments throws before
the entry is stored; otherwise the entry is stored in `pending` status
before delivery, and a delivery failure becomes an error record rather than
aborting the loop.  `send id attempt` is the HTTP oracle for call `id`. -/
def sendToolCallsLoop (send : String → Nat → SendOutcome) (emp : Employee)
    (url : String) (store : Store) (tcs : List ToolCall)
    (threadId runId employeeId : String) (now : Int) (nowIso : String) :
    Store × List CallResult :=
  match tcs with
  | [] => (store, [])
  | tc :: rest =>
    match tc.argumentsJson with
    | .error m =>
      let out := sendToolCallsLoop send emp url store rest threadId runId employeeId now nowIso
      (out.1, CallResult.error tc.id employeeId m true :: out.2)
    | .ok args =>
      let payload : WebhookPayload :=
        { tool_call_id := tc.id, function_name := tc.functionName, arguments := args
          thread_id := threadId, run_id := runId, employee_id := employeeId
          employee_name := emp.name, employee_role := emp.role
          timestamp := nowIso, retry_count := 0 }
      let entry : PendingCall :=
        { threadId := threadId, runId := runId, employeeId := employeeId
          functionName := tc.functionName, timestamp := now, arguments := args
          retryCount := 0, webhookUrl := url, payload := payload }
      let store1 := mapSet store tc.id entry
      let sent := sendWebhookWithRetry (send tc.id) store1 payload url nowIso 1
      let r := dispatchRecord tc.id employeeId sent.result
      let out := sendToolCallsLoop send emp url sent.store rest threadId runId employeeId now nowIso
      (out.1, r :: out.2)

/-- `sendToolCalls(toolCalls, threadId, runId, employeeId)` (lines 39-120).
`Except.error` is the configuration error rethrown when the employee is
unknown or its webhook URL is missing or a placeholder; it escapes before
any entry is stored or any call dispatched. -/
def sendToolCalls (send : String → Nat → SendOutcome) (store : Store)
    (tcs : List ToolCall) (threadId runId employeeId : String)
    (now : Int) (nowIso : String) : Except String (Store × List CallResult) :=
  match employees.lookup employeeId with
  | none => .error ("Employee \x27" ++ employeeId ++ "\x27 not found in configuration")
  | some emp =>
    if emp.webhookUrl == "" || jsIncludes emp.webhookUrl "placeholder" then
      .error ("Webhook URL not configured for employee \x27" ++ emp.name ++ "\x27")
    else
      .ok (sendToolCallsLoop send emp emp.webhookUrl store tcs threadId runId employeeId
        now nowIso)

/-! ### The `/ask` busy check (routes, lines 840-906)

When a `thread_id` is supplied, the handler lists the latest run of the
thread and refuses the turn with HTTP 409 if it is active — except that a
`requires_action` run with no matching entries in the pending-call store
falls through, and the handler proceeds to append a message and start a new
run.  The provider operations that would mutate the thread are recorded as
`ProviderAction`s. -/

/-- Provider run status as read by the handler. -/
inductive RunStatus where
  | queued
  | in_progress
  | requires_action
  | completed
  | failed
  | cancelled
  | expired
deriving Repr, DecidableEq

/-- The latest run of a thread: identifier and status. -/
structure RunInfo where
  id : String
  status : RunStatus
deriving Repr, DecidableEq

/-- `['queued', 'in_progress', 'requires_action'].includes(latestRun.status)`. -/
def isActiveStatus (s : RunStatus) : Bool :=
  s == .queued || s == .in_progress || s == .requires_action

/-- The two HTTP 409 bodies of the busy branch. -/
inductive BusyReport where
  | busyToolCalls (runId : String) (pendingCount : Nat) : BusyReport
  | busy (runId : String) (current : RunStatus) : BusyReport
deriving Repr, DecidableEq

/-- Thread-mutating provider operations of steps 2 and 3 of the handler. -/
inductive ProviderAction where
  | addMessage (threadId message : String) : ProviderAction
  | startRun (threadId assistantId : String) : ProviderAction
deriving Repr, DecidableEq

/-- The active-run check (lines 845-885): `runs` is the provider answer to
`runs.list(threadId, { limit: 1 })`.  `none` means the handler falls
through to steps 2-4. -/
def checkActiveRun (store : Store) (threadId : String) (runs : List RunInfo) :
    Option BusyReport :=
  match runs with
  | [] => none
  | latest :: _ =>
    if isActiveStatus latest.status then
      if latest.status == .requires_action then
        let pending :=
          store.filter (fun e => e.2.threadId == threadId && e.2.runId == latest.id)
        if pending.length > 0 then some (.busyToolCalls latest.id pending.length)
        else none
      else some (.busy latest.id latest.status)
    else none

/-- Outcome of the existing-thread branch of `/ask`: a 409 busy response, or
fall-through to the mutating steps. -/
inductive AskBranch where
  | busyResponse (httpStatus : Nat) (report : BusyReport) : AskBranch
  | proceedTurn : AskBranch
deriving Repr, DecidableEq

/-- The `/ask` handler on a reused thread, up to the first provider
mutation: a busy report is returned with HTTP 409 and no mutation;
otherwise the handler appends the user message and starts a run. -/
def askExistingThreadStep (store : Store) (threadId message assistantId : String)
    (runs : List RunInfo) : AskBranch × List ProviderAction :=
  match checkActiveRun store threadId runs with
  | some report => (.busyResponse 409 report, [])
  | none => (.proceedTurn, [.addMessage threadId message, .startRun threadId assistantId])

end Bridge

namespace Bridge

/-- A well-formed store has pairwise distinct keys (a JavaScript `Map`
cannot hold two entries for one key). -/
def storeKeysNodup (store : Store) : Prop :=
  (store.map Prod.fst).Nodup

/-- Whether one delivery attempt failed: a resolved response with status at
least 400 (which the code turns into a thrown error), or a rejection. -/
def sendAttemptFails : SendOutcome → Prop
  | .resp status _ => 400 ≤ status
  | .err _ => True

/-! ### Concrete fixtures used by witnesses -/

/-- A concrete outbound payload. -/
def samplePayload : WebhookPayload :=
  { tool_call_id := "call_1", function_name := "scrape_leads"
    arguments := Json.obj [("query", Json.str "venues")]
    thread_id := "t1", run_id := "r1", employee_id := "brenden"
    employee_name := "AI Brenden", employee_role := "lead scraper"
    timestamp := "2024-01-01T00:00:00.000Z", retry_count := 0 }

/-- A concrete pending-call entry. -/
def samplePending : PendingCall :=
  { threadId := "t1", runId := "r1", employeeId := "brenden"
    functionName := "scrape_leads", timestamp := 0
    arguments := Json.obj [("query", Json.str "venues")]
    retryCount := 0
    webhookUrl := "https://hook.eu2.make.com/lxa5qab0magprieff0sujnfkfycwu9x7"
    payload := samplePayload }

/-- A concrete requested tool call. -/
def sampleToolCall : ToolCall :=
  { id := "call_1", functionName := "scrape_leads"
    argumentsJson := .ok (Json.obj [("query", Json.str "venues")]) }

/-- A second concrete requested tool call. -/
def sampleToolCall2 : ToolCall :=
  { id := "call_2", functionName := "design_page"
    argumentsJson := .ok (Json.obj [("brief", Json.str "launch")]) }

/-! ### Store lemmas -/

theorem mapGet_eq_none_of_not_mem_keys {store : Store} {k : String}
    (h : k ∉ store.map Prod.fst) : mapGet store k = none := by
  induction store with
  | nil => rfl
  | cons e rest ih =>
    obtain ⟨k', v'⟩ := e
    simp only [List.map_cons, List.mem_cons] at h
    push_neg at h
    simp [mapGet, Ne.symm h.1, ih h.2]

theorem mapGet_mapSet_self (store : Store) (k : String) (v : PendingCall) :
    mapGet (mapSet store k v) k = some v := by
  induction store with
  | nil => simp [mapSet, mapGet]
  | cons e rest ih =>
    obtain ⟨k', v'⟩ := e
    by_cases h : k' = k <;> simp [mapSet, mapGet, h, ih]

theorem mapGet_mapDelete_self {store : Store} (k : String)
    (h : storeKeysNodup store) : mapGet (mapDelete store k) k = none := by
  induction store with
  | nil => rfl
  | cons e rest ih =>
    obtain ⟨k', v'⟩ := e
    simp only [storeKeysNodup, List.map_cons, List.nodup_cons] at h
    by_cases hk : k' = k
    · subst hk
      simpa [mapDelete] using mapGet_eq_none_of_not_mem_keys h.1
    · simp [mapDelete, hk, mapGet, ih h.2]

theorem length_mapDelete_of_mem {store : Store} {k : String} {pc : PendingCall}
    (h : mapGet store k = some pc) :
    (mapDelete store k).length + 1 = store.length := by
  induction store with
  | nil => simp [mapGet] at h
  | cons e rest ih =>
    obtain ⟨k', v'⟩ := e
    by_cases hk : k' = k
    · simp [mapDelete, hk]
    · simp only [mapGet, if_neg hk] at h
      simp [mapDelete, hk, ih h]

/-! ### Claim theorems -/

/-- C4: the retry delay computed by `sendWebhookWithRetry` for attempt `n`
is `min(baseDelay * 2^(n-1), maxDelay)`; with the configured
`baseDelay = 2000` and `maxDelay = 10000` the delays for attempts 1..5 are
exactly 2000, 4000, 8000, 10000, 10000, and the computation is a pure
function of `(attempt, baseDelay, maxDelay)`. -/
theorem c4_backoff_determinism :
    retryDelay = 2000 ∧ maxRetryDelay = 10000 ∧
    [1, 2, 3, 4, 5].map (backoffDelay retryDelay maxRetryDelay) =
      [2000, 4000, 8000, 10000, 10000] ∧
    ∀ base maxD attempt,
      backoffDelay base maxD attempt = Nat.min (base * 2 ^ (attempt - 1)) maxD :=
  ⟨rfl, rfl, by decide, fun _ _ _ => rfl⟩

/-- C2 counterexample: a reused thread whose latest run is in the
non-terminal `requires_action` state, with no matching entry in the
pending-call store, is NOT refused — the handler falls through and performs
the provider mutations (append message, start run). -/
theorem c2_counterexample_requires_action_proceeds :
    askExistingThreadStep [] "thread_1" "hello" "asst_1"
        [{ id := "run_1", status := .requires_action }] =
      (.proceedTurn,
       [.addMessage "thread_1" "hello", .startRun "thread_1" "asst_1"]) := by
  rfl

/-- C2 (amended): on a reused thread, a latest run in `queued` or
`in_progress` state yields HTTP 409 busy with no provider mutation; a
latest run in `requires_action` state yields HTTP 409 busy (with the count)
only when at least one matching pending call is stored — otherwise the
handler proceeds to mutate. -/
theorem c2_busy_detection (store : Store) (tid msg aid : String)
    (runs : List RunInfo) (latest : RunInfo) (rest : List RunInfo)
    (hruns : runs = latest :: rest) :
    ((latest.status = .queued ∨ latest.status = .in_progress) →
      askExistingThreadStep store tid msg aid runs =
        (.busyResponse 409 (.busy latest.id latest.status), [])) ∧
    (latest.status = .requires_action →
      0 < (store.filter (fun e => e.2.threadId == tid && e.2.runId == latest.id)).length →
      askExistingThreadStep store tid msg aid runs =
        (.busyResponse 409 (.busyToolCalls latest.id
          (store.filter (fun e => e.2.threadId == tid && e.2.runId == latest.id)).length),
         [])) := by
  subst hruns
  constructor
  · rintro (h | h) <;>
      simp [askExistingThreadStep, checkActiveRun, isActiveStatus, h]
  · intro h hlen
    simp [askExistingThreadStep, checkActiveRun, isActiveStatus, h, hlen]

/-- C2 witness: a queued latest run on a reused thread is refused with 409
and no provider action is performed. -/
theorem c2_busy_detection_witness :
    askExistingThreadStep [] "thread_1" "hello" "asst_1"
        [{ id := "run_1", status := .queued }] =
      (.busyResponse 409 (.busy "run_1" .queued), []) :=
  (c2_busy_detection [] "thread_1" "hello" "asst_1"
      [{ id := "run_1", status := .queued }]
      { id := "run_1", status := .queued } [] rfl).1 (Or.inl rfl)

/-- C8: one cleanup sweep at time `now` deletes every entry older than 24
hours regardless of status, deletes every `failed` entry older than 2 hours
(in particular those younger than 24 hours), and keeps every non-`failed`
entry at most 24 hours old, independent of its retry count. -/
theorem c8_ttl_sweep (now : Int) (store : Store) (id : String) (pc : PendingCall)
    (hmem : (id, pc) ∈ store) :
    (oneDayMs < now - pc.timestamp → (id, pc) ∉ cleanupPendingCalls now store) ∧
    (pc.status = some "failed" → twoHoursMs < now - pc.timestamp →
      now - pc.timestamp ≤ oneDayMs → (id, pc) ∉ cleanupPendingCalls now store) ∧
    (pc.status ≠ some "failed" → now - pc.timestamp ≤ oneDayMs →
      (id, pc) ∈ cleanupPendingCalls now store) := by
  refine ⟨fun hage hin => ?_, fun hst hage _ hin => ?_, fun hst hage => ?_⟩
  · rw [cleanupPendingCalls, List.mem_filter] at hin
    have h2 : sweepKeeps now pc = true := hin.2
    rw [sweepKeeps, if_pos (by omega)] at h2
    exact absurd h2 (by simp)
  · rw [cleanupPendingCalls, List.mem_filter] at hin
    have h2 : sweepKeeps now pc = true := hin.2
    rw [sweepKeeps, if_neg (by omega), if_pos (by simp [hst]; omega)] at h2
    exact absurd h2 (by simp)
  · rw [cleanupPendingCalls, List.mem_filter]
    refine ⟨hmem, ?_⟩
    show sweepKeeps now pc = true
    rw [sweepKeeps, if_neg (by omega), if_neg ?_]
    simp only [Bool.and_eq_true, beq_iff_eq, not_and]
    intro _
    simpa using hst

/-- C8 witness: a fresh (`status` absent, hence `pending`) entry aged 100 ms
survives a sweep. -/
theorem c8_ttl_sweep_witness :
    samplePending.status ≠ some "failed" ∧ (100 : Int) - samplePending.timestamp ≤ oneDayMs ∧
    ("call_1", samplePending) ∈ cleanupPendingCalls 100 [("call_1", samplePending)] :=
  ⟨by simp [samplePending], by decide,
   (c8_ttl_sweep 100 [("call_1", samplePending)] "call_1" samplePending
       (List.mem_singleton.mpr rfl)).2.2 (by simp [samplePending]) (by decide)⟩

/-- Helper for C10: a falsy `output` always lands in the `missingFields`
list, so the validator answers 400 `Missing required fields`. -/
theorem validateWebhookResponse_falsy_output (d : ResponseData)
    (h : jsFalsy d.output = true) :
    validateWebhookResponse d = some ⟨400, "Missing required fields"⟩ := by
  rw [validateWebhookResponse]
  cases h1 : jsFalsy d.tool_call_id <;> cases h3 : jsFalsy d.thread_id <;>
    cases h4 : jsFalsy d.run_id <;> simp [List.filter, h, h1, h3, h4]

/-- C10: the HTTP-boundary validator rejects with 400 `Missing required
fields` any body whose `output` is falsy (including `false`, `0` and `""`,
not only `null`/`undefined`), although `processWebhookResponse` itself only
rejects `null`/`undefined` outputs; hence through `/webhook-response` a
falsy output never reaches correlation. -/
theorem c10_falsy_output_boundary :
    (∀ d : ResponseData, jsFalsy d.output = true →
      validateWebhookResponse d = some ⟨400, "Missing required fields"⟩) ∧
    (∀ d : ResponseData, d.output ≠ .undefined → d.output ≠ .null →
      "output cannot be undefined or null" ∉ validationErrorsOf d) ∧
    (∀ (store : Store) (nowIso : String) (d : ResponseData), jsFalsy d.output = true →
      webhookResponseEndpoint store nowIso d = .error ⟨400, "Missing required fields"⟩) := by
  refine ⟨validateWebhookResponse_falsy_output, fun d h1 h2 => ?_, fun store nowIso d h => ?_⟩
  · rw [validationErrorsOf]
    cases houtput : d.output <;> try exact absurd houtput (by simpa using h1)
    all_goals
      first
      | exact absurd houtput (by simpa using h2)
      | (split_ifs <;> simp_all)
  · rw [webhookResponseEndpoint, validateWebhookResponse_falsy_output d h]

/-- C10 witness: `output = false` is rejected at the boundary with 400
`Missing required fields`, `output = 0` is not rejected by
`processWebhookResponse`'s own null/undefined check, and `output = false`
never reaches correlation. -/
theorem c10_falsy_output_boundary_witness :
    validateWebhookResponse
        { tool_call_id := .str "call_1", output := .bool false
          thread_id := .str "t1", run_id := .str "r1" } =
      some ⟨400, "Missing required fields"⟩ ∧
    "output cannot be undefined or null" ∉
      validationErrorsOf
        { tool_call_id := .str "call_1", output := .num 0
          thread_id := .str "t1", run_id := .str "r1" } ∧
    webhookResponseEndpoint [] "iso"
        { tool_call_id := .str "call_1", output := .bool false
          thread_id := .str "t1", run_id := .str "r1" } =
      .error ⟨400, "Missing required fields"⟩ :=
  ⟨c10_falsy_output_boundary.1 _ rfl,
   c10_falsy_output_boundary.2.1 _ (by rintro ⟨⟩) (by rintro ⟨⟩),
   c10_falsy_output_boundary.2.2 [] "iso" _ rfl⟩

/-- C6 counterexample: `sendToolCalls` does throw — for an agent whose
webhook URL is a placeholder (employee `angel`) the configuration error is
rethrown before any call yields a per-call record. -/
theorem c6_counterexample_dispatch_throws :
    sendToolCalls (fun _ _ => .resp 200 "ok") [] [sampleToolCall] "t1" "r1" "angel" 0 "iso" =
      .error "Webhook URL not configured for employee \x27AI Angel\x27" := by
  rfl

/-- A successful `sendWebhookWithRetry` returns the record for the payload's
own tool call (fuelled induction over the bounded retry recursion). -/
theorem sendWebhookWithRetry_ok_toolCallId (send : Nat → SendOutcome)
    (p : WebhookPayload) (url nowIso : String) :
    ∀ (n attempt : Nat) (store : Store) (sr : SendResult),
      retryAttempts + 1 - attempt ≤ n →
      (sendWebhookWithRetry send store p url nowIso attempt).result = Except.ok sr →
      sr.toolCallId = p.tool_call_id := by
  intro n
  induction n with
  | zero =>
    intro attempt store sr hle h
    have ha : ¬attempt < retryAttempts := by omega
    rw [sendWebhookWithRetry] at h
    cases hsend : send attempt with
    | resp status data =>
      rw [hsend] at h
      dsimp only at h
      by_cases hs : 400 ≤ status
      · rw [if_pos hs, dif_neg ha] at h
        simp at h
      · rw [if_neg hs] at h
        cases h
        rfl
    | err m =>
      rw [hsend] at h
      dsimp only at h
      rw [dif_neg ha] at h
      simp at h
  | succ n ih =>
    intro attempt store sr hle h
    rw [sendWebhookWithRetry] at h
    cases hsend : send attempt with
    | resp status data =>
      rw [hsend] at h
      dsimp only at h
      by_cases hs : 400 ≤ status
      · rw [if_pos hs] at h
        by_cases ha : attempt < retryAttempts
        · rw [dif_pos ha] at h
          exact ih (attempt + 1) _ sr (by omega) h
        · rw [dif_neg ha] at h
          simp at h
      · rw [if_neg hs] at h
        cases h
        rfl
    | err m =>
      rw [hsend] at h
      dsimp only at h
      by_cases ha : attempt < retryAttempts
      · rw [dif_pos ha] at h
        exact ih (attempt + 1) _ sr (by omega) h
      · rw [dif_neg ha] at h
        simp at h

/-- The pushed record always carries the dispatched call's id. -/
theorem callResultId_dispatchRecord (tcId eid : String)
    (res : Except String SendResult)
    (hok : ∀ sr, res = .ok sr → sr.toolCallId = tcId) :
    callResultId (dispatchRecord tcId eid res) = tcId := by
  cases res with
  | ok sr => exact hok sr rfl
  | error m => rfl

/-- Helper for C6: the per-call loop yields exactly one record per tool
call, carrying that call's id, in order — regardless of delivery outcomes,
so one call's failure does not abort dispatch of the rest. -/
theorem sendToolCallsLoop_ids (send : String → Nat → SendOutcome) (emp : Employee)
    (url : String) (store : Store) (tcs : List ToolCall)
    (tid rid eid : String) (now : Int) (nowIso : String) :
    (sendToolCallsLoop send emp url store tcs tid rid eid now nowIso).2.map callResultId =
      tcs.map ToolCall.id := by
  induction tcs generalizing store with
  | nil => rfl
  | cons tc rest ih =>
    cases h : tc.argumentsJson with
    | error m => simp [sendToolCallsLoop, h, callResultId, ih]
    | ok args =>
      rw [sendToolCallsLoop, h]
      dsimp only
      rw [List.map_cons]
      refine congrArg₂ List.cons ?_ (ih _)
      refine callResultId_dispatchRecord tc.id eid _ (fun sr hsr => ?_)
      exact sendWebhookWithRetry_ok_toolCallId (send tc.id) _ url nowIso
        (retryAttempts + 1 - 1) 1 _ sr le_rfl hsr

/-- C6 (amended): provided the agent's webhook URL resolves (employee known,
URL configured and not a placeholder), `sendToolCalls` never throws: it
returns one per-call record (`sent` with the echo or `error` with the
reason) per input tool call, in order, whatever each delivery did.  With an
unresolvable agent it throws a configuration error before dispatching
anything. -/
theorem c6_dispatch_never_throws (send : String → Nat → SendOutcome) (store : Store)
    (tcs : List ToolCall) (tid rid eid : String) (now : Int) (nowIso : String)
    (url : String) (hurl : getWebhookUrlForEmployee eid = .ok url) :
    ∃ store' results,
      sendToolCalls send store tcs tid rid eid now nowIso = .ok (store', results) ∧
      results.map callResultId = tcs.map ToolCall.id ∧
      results.length = tcs.length := by
  rw [getWebhookUrlForEmployee] at hurl
  cases hemp : employees.lookup eid with
  | none => rw [hemp] at hurl; simp at hurl
  | some emp =>
    rw [hemp] at hurl
    dsimp only at hurl
    by_cases hc : (emp.webhookUrl == "" || jsIncludes emp.webhookUrl "placeholder") = true
    · rw [if_pos hc] at hurl; exact absurd hurl (by simp)
    · refine ⟨(sendToolCallsLoop send emp emp.webhookUrl store tcs tid rid eid now nowIso).1,
        (sendToolCallsLoop send emp emp.webhookUrl store tcs tid rid eid now nowIso).2, ?_,
        sendToolCallsLoop_ids send emp emp.webhookUrl store tcs tid rid eid now nowIso, ?_⟩
      · rw [sendToolCalls, hemp]
        dsimp only
        rw [if_neg hc]
      · have := sendToolCallsLoop_ids send emp emp.webhookUrl store tcs tid rid eid now nowIso
        calc (sendToolCallsLoop send emp emp.webhookUrl store tcs tid rid eid now nowIso).2.length
            = ((sendToolCallsLoop send emp emp.webhookUrl store tcs tid rid eid
                now nowIso).2.map callResultId).length := (List.length_map _ _).symm
          _ = (tcs.map ToolCall.id).length := by rw [this]
          _ = tcs.length := List.length_map _ _

/-- C6 witness: for employee `brenden` (resolvable URL) and an oracle that
always rejects, dispatch still returns one record per call, in order. -/
theorem c6_dispatch_never_throws_witness :
    getWebhookUrlForEmployee "brenden" =
      .ok "https://hook.eu2.make.com/lxa5qab0magprieff0sujnfkfycwu9x7" ∧
    ∃ store' results,
      sendToolCalls (fun _ _ => .err "connection refused") [] [sampleToolCall, sampleToolCall2]
          "t1" "r1" "brenden" 0 "iso" = .ok (store', results) ∧
      results.map callResultId = ["call_1", "call_2"] := by
  refine ⟨rfl, ?_⟩
  obtain ⟨s, r, h1, h2, _⟩ :=
    c6_dispatch_never_throws (fun _ _ => .err "connection refused") []
      [sampleToolCall, sampleToolCall2] "t1" "r1" "brenden" 0 "iso"
      "https://hook.eu2.make.com/lxa5qab0magprieff0sujnfkfycwu9x7" rfl
  exact ⟨s, r, h1, h2.trans rfl⟩



/-- C9: a structurally valid result whose tool-call id has no pending entry
is processed in degraded mode: no failure, warning signals emitted, the
normalized output returned with `employee_id`/`employee_name` reported as
`unknown`, and the store left unchanged. -/
theorem c9_correlation_miss_degraded (store : Store) (nowIso : String)
    (d : ResponseData) (po : String)
    (hval : validationErrorsOf d = [])
    (hout : processOutput d.output = .ok po)
    (hget : mapGet store d.tool_call_id.asStr = none) :
    processWebhookResponse store nowIso d =
      ⟨store,
       ["No pending tool call found for ID: " ++ d.tool_call_id.asStr,
        "Processing webhook response without pending call validation"],
       .ok { tool_call_id := d.tool_call_id.asStr, output := po
             thread_id := d.thread_id.asStr, run_id := d.run_id.asStr
             employee_id := "unknown", employee_name := some "unknown"
             processed_at := nowIso, output_size := po.length }⟩ := by
  rw [processWebhookResponse]
  dsimp only
  rw [hval, if_neg (by simp), hout]
  dsimp only
  rw [hget]

/-- C9 witness: the degraded path at a concrete input with an empty store. -/
theorem c9_correlation_miss_degraded_witness :
    processWebhookResponse [] "iso"
        { tool_call_id := .str "call_9", output := .str " result data "
          thread_id := .str "t1", run_id := .str "r1" } =
      ⟨[],
       ["No pending tool call found for ID: call_9",
        "Processing webhook response without pending call validation"],
       .ok { tool_call_id := "call_9", output := "result data"
             thread_id := "t1", run_id := "r1"
             employee_id := "unknown", employee_name := some "unknown"
             processed_at := "iso", output_size := 11 }⟩ :=
  c9_correlation_miss_degraded [] "iso"
    { tool_call_id := .str "call_9", output := .str " result data "
      thread_id := .str "t1", run_id := .str "r1" }
    "result data" (by decide) rfl rfl

/-- C1: a result whose id matches a stored pending call but whose thread or
run id differs from the stored pair fails with a mismatch error, and the
store is unchanged — the entry is still present with all its fields. -/
theorem c1_correlation_mismatch_rejected (store : Store) (nowIso : String)
    (d : ResponseData) (pc : PendingCall)
    (hval : validationErrorsOf d = [])
    (hout : ∃ po, processOutput d.output = .ok po)
    (hget : mapGet store d.tool_call_id.asStr = some pc)
    (hmis : pc.threadId ≠ d.thread_id.asStr ∨ pc.runId ≠ d.run_id.asStr) :
    (processWebhookResponse store nowIso d).store = store ∧
    mapGet (processWebhookResponse store nowIso d).store d.tool_call_id.asStr = some pc ∧
    ((processWebhookResponse store nowIso d).result =
        .error ("Thread ID mismatch! Expected: " ++ pc.threadId ++ ", Received: " ++
          d.thread_id.asStr) ∨
      (processWebhookResponse store nowIso d).result =
        .error ("Run ID mismatch! Expected: " ++ pc.runId ++ ", Received: " ++
          d.run_id.asStr)) := by
  obtain ⟨po, hpo⟩ := hout
  rw [processWebhookResponse]
  dsimp only
  rw [hval, if_neg (by simp), hpo]
  dsimp only
  rw [hget]
  dsimp only
  by_cases ht : pc.threadId ≠ d.thread_id.asStr
  · rw [if_pos ht]
    exact ⟨rfl, hget, Or.inl rfl⟩
  · rw [if_neg ht]
    have hr : pc.runId ≠ d.run_id.asStr := hmis.resolve_left ht
    rw [if_pos hr]
    exact ⟨rfl, hget, Or.inr rfl⟩

/-- C1 witness: a stored call for thread `t1` rejects a result claiming
thread `WRONG`; the entry survives with all fields intact. -/
theorem c1_correlation_mismatch_rejected_witness :
    (processWebhookResponse [("call_1", samplePending)] "iso"
        { tool_call_id := .str "call_1", output := .str "result data"
          thread_id := .str "WRONG", run_id := .str "r1" }).store =
      [("call_1", samplePending)] ∧
    mapGet (processWebhookResponse [("call_1", samplePending)] "iso"
        { tool_call_id := .str "call_1", output := .str "result data"
          thread_id := .str "WRONG", run_id := .str "r1" }).store "call_1" =
      some samplePending ∧
    ((processWebhookResponse [("call_1", samplePending)] "iso"
        { tool_call_id := .str "call_1", output := .str "result data"
          thread_id := .str "WRONG", run_id := .str "r1" }).result =
        .error "Thread ID mismatch! Expected: t1, Received: WRONG" ∨
      (processWebhookResponse [("call_1", samplePending)] "iso"
        { tool_call_id := .str "call_1", output := .str "result data"
          thread_id := .str "WRONG", run_id := .str "r1" }).result =
        .error "Run ID mismatch! Expected: r1, Received: r1") :=
  c1_correlation_mismatch_rejected [("call_1", samplePending)] "iso"
    { tool_call_id := .str "call_1", output := .str "result data"
      thread_id := .str "WRONG", run_id := .str "r1" }
    samplePending (by decide) ⟨"result data", rfl⟩ rfl
    (Or.inl (by decide))

/-- C3: with a stored matching pending call, the first correlate call
succeeds (returning the stored employee context) and deletes exactly that
entry; a second call with the same id observes a correlation miss: it
leaves the store unchanged, emits the not-found warnings, and returns the
degraded `unknown` context. -/
theorem c3_at_most_once_resumption (store : Store) (nowIso nowIso2 : String)
    (d : ResponseData) (pc : PendingCall)
    (hnd : storeKeysNodup store)
    (hval : validationErrorsOf d = [])
    (hout : ∃ po, processOutput d.output = .ok po)
    (hget : mapGet store d.tool_call_id.asStr = some pc)
    (hthread : pc.threadId = d.thread_id.asStr)
    (hrun : pc.runId = d.run_id.asStr) :
    (processWebhookResponse store nowIso d).store = mapDelete store d.tool_call_id.asStr ∧
    (∃ r, (processWebhookResponse store nowIso d).result = .ok r ∧
      r.employee_id = pc.employeeId) ∧
    (processWebhookResponse store nowIso d).store.length + 1 = store.length ∧
    mapGet (processWebhookResponse store nowIso d).store d.tool_call_id.asStr = none ∧
    (processWebhookResponse (processWebhookResponse store nowIso d).store nowIso2 d).store =
      (processWebhookResponse store nowIso d).store ∧
    (∃ r2, (processWebhookResponse (processWebhookResponse store nowIso d).store
        nowIso2 d).result = .ok r2 ∧ r2.employee_id = "unknown") ∧
    (processWebhookResponse (processWebhookResponse store nowIso d).store nowIso2 d).warnings ≠
      [] := by
  obtain ⟨po, hpo⟩ := hout
  have hfirst : processWebhookResponse store nowIso d =
      ⟨mapDelete store d.tool_call_id.asStr, [],
       .ok { tool_call_id := d.tool_call_id.asStr, output := po
             thread_id := d.thread_id.asStr, run_id := d.run_id.asStr
             employee_id := pc.employeeId, employee_name := employeeNameOf pc.employeeId
             processed_at := nowIso, output_size := po.length }⟩ := by
    rw [processWebhookResponse]
    dsimp only
    rw [hval, if_neg (by simp), hpo]
    dsimp only
    rw [hget]
    dsimp only
    rw [if_neg (by simp [hthread]), if_neg (by simp [hrun])]
  have hnone : mapGet (mapDelete store d.tool_call_id.asStr) d.tool_call_id.asStr = none :=
    mapGet_mapDelete_self _ hnd
  have hsecond := c9_correlation_miss_degraded (mapDelete store d.tool_call_id.asStr)
    nowIso2 d po hval hpo hnone
  have hs1 : (processWebhookResponse store nowIso d).store =
      mapDelete store d.tool_call_id.asStr := by rw [hfirst]
  have hr1 : (processWebhookResponse store nowIso d).result =
      .ok { tool_call_id := d.tool_call_id.asStr, output := po
            thread_id := d.thread_id.asStr, run_id := d.run_id.asStr
            employee_id := pc.employeeId, employee_name := employeeNameOf pc.employeeId
            processed_at := nowIso, output_size := po.length } := by rw [hfirst]
  refine ⟨hs1, ⟨_, hr1, rfl⟩, ?_, ?_, ?_, ?_, ?_⟩
  · rw [hs1]
    exact length_mapDelete_of_mem hget
  · rw [hs1]
    exact hnone
  · rw [hs1, hsecond]
  · rw [hs1, hsecond]
    exact ⟨_, rfl, rfl⟩
  · rw [hs1, hsecond]
    simp

/-- C3 witness: the two-call scenario at a concrete matching input. -/
theorem c3_at_most_once_resumption_witness :
    (processWebhookResponse [("call_1", samplePending)] "iso"
        { tool_call_id := .str "call_1", output := .str "result data"
          thread_id := .str "t1", run_id := .str "r1" }).store = [] ∧
    mapGet (processWebhookResponse [("call_1", samplePending)] "iso"
        { tool_call_id := .str "call_1", output := .str "result data"
          thread_id := .str "t1", run_id := .str "r1" }).store "call_1" = none ∧
    (∃ r2, (processWebhookResponse (processWebhookResponse [("call_1", samplePending)] "iso"
        { tool_call_id := .str "call_1", output := .str "result data"
          thread_id := .str "t1", run_id := .str "r1" }).store "iso2"
        { tool_call_id := .str "call_1", output := .str "result data"
          thread_id := .str "t1", run_id := .str "r1" }).result = .ok r2 ∧
      r2.employee_id = "unknown") := by
  obtain ⟨h1, _, _, h4, _, h6, _⟩ :=
    c3_at_most_once_resumption [("call_1", samplePending)] "iso" "iso2"
      { tool_call_id := .str "call_1", output := .str "result data"
        thread_id := .str "t1", run_id := .str "r1" }
      samplePending (by simp [storeKeysNodup]) (by decide)
      ⟨"result data", rfl⟩ rfl rfl rfl
  exact ⟨h1.trans rfl, h4, h6⟩

theorem mapGet_recordRetry_self {store : Store} {id : String} {pc : PendingCall}
    (attempt : Nat) (msg nowIso : String) (h : mapGet store id = some pc) :
    mapGet (recordRetry store id attempt msg nowIso) id =
      some { pc with retryCount := attempt
                     lastError := some msg
                     lastAttempt := some nowIso } := by
  rw [recordRetry, h]
  exact mapGet_mapSet_self store id _

theorem mapGet_recordFinalFailure_self {store : Store} {id : String} {pc : PendingCall}
    (msg nowIso : String) (h : mapGet store id = some pc) :
    mapGet (recordFinalFailure store id msg nowIso) id =
      some { pc with status := some "failed"
                     finalError := some msg
                     failedAt := some nowIso } := by
  rw [recordFinalFailure, h]
  exact mapGet_mapSet_self store id _

/-- Helper for C7: when every attempt fails and the entry is stored, the
bounded retry recursion ends in a thrown error with the stored entry marked
`failed` (and not deleted). -/
theorem sendWebhookWithRetry_allFail (send : Nat → SendOutcome) (p : WebhookPayload)
    (url nowIso : String) (hfail : ∀ a, sendAttemptFails (send a)) :
    ∀ (n attempt : Nat) (store : Store) (pc : PendingCall),
      retryAttempts + 1 - attempt ≤ n →
      mapGet store p.tool_call_id = some pc →
      ∃ m pcF,
        (sendWebhookWithRetry send store p url nowIso attempt).result = Except.error m ∧
        mapGet (sendWebhookWithRetry send store p url nowIso attempt).store p.tool_call_id =
          some pcF ∧
        pcF.status = some "failed" ∧ pcF.finalError ≠ none ∧
        pcF.failedAt = some nowIso := by
  intro n
  induction n with
  | zero =>
    intro attempt store pc hle hget
    have ha : ¬attempt < retryAttempts := by omega
    rw [sendWebhookWithRetry]
    cases hsend : send attempt with
    | resp status data =>
      have hs : 400 ≤ status := by
        have := hfail attempt
        rw [hsend] at this
        exact this
      dsimp only
      rw [if_pos hs, dif_neg ha]
      exact ⟨_, _, rfl, mapGet_recordFinalFailure_self _ _ hget, rfl, by simp, rfl⟩
    | err m =>
      dsimp only
      rw [dif_neg ha]
      exact ⟨_, _, rfl, mapGet_recordFinalFailure_self _ _ hget, rfl, by simp, rfl⟩
  | succ n ih =>
    intro attempt store pc hle hget
    rw [sendWebhookWithRetry]
    cases hsend : send attempt with
    | resp status data =>
      have hs : 400 ≤ status := by
        have := hfail attempt
        rw [hsend] at this
        exact this
      dsimp only
      rw [if_pos hs]
      by_cases ha : attempt < retryAttempts
      · rw [dif_pos ha]
        dsimp only
        exact ih (attempt + 1) _ _ (by omega) (mapGet_recordRetry_self attempt _ nowIso hget)
      · rw [dif_neg ha]
        exact ⟨_, _, rfl, mapGet_recordFinalFailure_self _ _ hget, rfl, by simp, rfl⟩
    | err m =>
      dsimp only
      by_cases ha : attempt < retryAttempts
      · rw [dif_pos ha]
        dsimp only
        exact ih (attempt + 1) _ _ (by omega) (mapGet_recordRetry_self attempt _ nowIso hget)
      · rw [dif_neg ha]
        exact ⟨_, _, rfl, mapGet_recordFinalFailure_self _ _ hget, rfl, by simp, rfl⟩

/-- C7: when `sendWebhookWithRetry` exhausts its attempts for a tool call,
it sets the stored entry's status to `failed` and records the final error
without deleting the entry, and signals terminal failure to its caller by
throwing. -/
theorem c7_exhaustion_marks_failed (send : Nat → SendOutcome) (store : Store)
    (p : WebhookPayload) (url nowIso : String) (attempt : Nat) (pc : PendingCall)
    (hfail : ∀ a, sendAttemptFails (send a))
    (hget : mapGet store p.tool_call_id = some pc) :
    ∃ m pcF,
      (sendWebhookWithRetry send store p url nowIso attempt).result = Except.error m ∧
      mapGet (sendWebhookWithRetry send store p url nowIso attempt).store p.tool_call_id =
        some pcF ∧
      pcF.status = some "failed" ∧ pcF.finalError ≠ none ∧ pcF.failedAt = some nowIso :=
  sendWebhookWithRetry_allFail send p url nowIso hfail (retryAttempts + 1 - attempt)
    attempt store pc le_rfl hget

/-- C7 witness: with connection failures on every attempt, the stored entry
for the dispatched call ends `failed` with the error recorded, still in the
store, while the call itself throws. -/
theorem c7_exhaustion_marks_failed_witness :
    ∃ m pcF,
      (sendWebhookWithRetry (fun _ => .err "ECONNREFUSED") [("call_1", samplePending)]
          samplePayload samplePending.webhookUrl "iso" 1).result = Except.error m ∧
      mapGet (sendWebhookWithRetry (fun _ => .err "ECONNREFUSED") [("call_1", samplePending)]
          samplePayload samplePending.webhookUrl "iso" 1).store "call_1" = some pcF ∧
      pcF.status = some "failed" ∧ pcF.finalError ≠ none ∧ pcF.failedAt = some "iso" :=
  c7_exhaustion_marks_failed (fun _ => .err "ECONNREFUSED") [("call_1", samplePending)]
    samplePayload samplePending.webhookUrl "iso" 1 samplePending
    (fun _ => trivial) rfl

/-! ### Trim and end-character lemmas (for C5) -/

theorem dropWhile_head_false :
    ∀ {l : List Char} {a : Char} {t : List Char},
      l.dropWhile isJsWs = a :: t → isJsWs a = false := by
  intro l
  induction l with
  | nil => intro a t h; simp at h
  | cons c cs ih =>
    intro a t h
    rw [List.dropWhile_cons] at h
    by_cases hc : isJsWs c = true
    · rw [if_pos hc] at h
      exact ih h
    · rw [if_neg hc] at h
      injection h with h1 _
      subst h1
      exact Bool.not_eq_true _ |>.mp hc

theorem dropWhile_eq_self_of_head {l : List Char} {a : Char}
    (h : l.head? = some a) (ha : isJsWs a = false) : l.dropWhile isJsWs = l := by
  cases l with
  | nil => rfl
  | cons c cs =>
    have hc : c = a := by simpa using h
    subst hc
    rw [List.dropWhile_cons, ha]
    simp

theorem trimChars_of_ends {l : List Char} {a b : Char}
    (hh : l.head? = some a) (ha : isJsWs a = false)
    (hl : l.getLast? = some b) (hb : isJsWs b = false) : trimChars l = l := by
  rw [trimChars, dropWhile_eq_self_of_head hh ha,
    dropWhile_eq_self_of_head (by rw [List.head?_reverse]; exact hl) hb,
    List.reverse_reverse]

theorem trimChars_of_all :
    ∀ {l : List Char}, (∀ c ∈ l, isJsWs c = false) → trimChars l = l
  | [], _ => rfl
  | c :: cs, h => by
    obtain ⟨b, hb⟩ :=
      Option.isSome_iff_exists.mp (List.getLast?_isSome.mpr (List.cons_ne_nil c cs))
    exact trimChars_of_ends rfl (h c (List.mem_cons_self c cs)) hb
      (h b (List.mem_of_mem_getLast? hb))

theorem trimChars_head_false {l : List Char} {a : Char} {t : List Char}
    (h : trimChars l = a :: t) : isJsWs a = false := by
  rw [trimChars] at h
  obtain ⟨s, hs⟩ := List.dropWhile_suffix (l := (l.dropWhile isJsWs).reverse) isJsWs
  have hm : l.dropWhile isJsWs =
      ((l.dropWhile isJsWs).reverse.dropWhile isJsWs).reverse ++ s.reverse := by
    have h2 := congrArg List.reverse hs
    rw [List.reverse_append, List.reverse_reverse] at h2
    exact h2.symm
  rw [h] at hm
  exact dropWhile_head_false hm

theorem trimChars_getLast_false {l : List Char} {b : Char}
    (h : (trimChars l).getLast? = some b) : isJsWs b = false := by
  rw [trimChars, List.getLast?_reverse] at h
  cases hd : ((l.dropWhile isJsWs).reverse).dropWhile isJsWs with
  | nil => rw [hd] at h; cases h
  | cons x xs =>
    rw [hd] at h
    have hx : x = b := by simpa using h
    subst hx
    exact dropWhile_head_false hd

theorem trimChars_idem (l : List Char) : trimChars (trimChars l) = trimChars l := by
  cases h : trimChars l with
  | nil => rfl
  | cons a t =>
    obtain ⟨b, hb⟩ :=
      Option.isSome_iff_exists.mp (List.getLast?_isSome.mpr (h ▸ List.cons_ne_nil a t))
    exact trimChars_of_ends rfl (trimChars_head_false h) (h ▸ hb)
      (trimChars_getLast_false hb)

theorem jsTrim_idem (s : String) : jsTrim (jsTrim s) = jsTrim s :=
  congrArg String.mk (trimChars_idem s.data)

theorem head?_take {l : List Char} {n : Nat} (h : 0 < n) :
    (l.take n).head? = l.head? := by
  cases l with
  | nil => rw [List.take_nil]
  | cons c cs =>
    cases n with
    | zero => omega
    | succ m => rw [List.take_succ_cons]; rfl

theorem head?_append_of_ne_nil {l₁ l₂ : List Char} (h : l₁ ≠ []) :
    (l₁ ++ l₂).head? = l₁.head? := by
  cases l₁ with
  | nil => exact absurd rfl h
  | cons c cs => rfl

theorem natDigitsAux_mem :
    ∀ (fuel n : Nat), ∀ c ∈ natDigitsAux fuel n, ∃ k, k < 10 ∧ c = digitChar k := by
  intro fuel
  induction fuel with
  | zero => intro n c hc; simp [natDigitsAux] at hc
  | succ fuel ih =>
    intro n c hc
    rw [natDigitsAux] at hc
    by_cases h : n < 10
    · rw [if_pos h] at hc
      simp only [List.mem_singleton] at hc
      exact ⟨n, h, hc⟩
    · rw [if_neg h] at hc
      rcases List.mem_append.mp hc with h1 | h2
      · exact ih _ c h1
      · simp only [List.mem_singleton] at h2
        exact ⟨n % 10, Nat.mod_lt _ (by norm_num), h2⟩

theorem digitChar_not_ws : ∀ k, k < 10 → isJsWs (digitChar k) = false := by decide

theorem jsIntToString_chars (n : Int) :
    ∀ c ∈ (jsIntToString n).data, isJsWs c = false := by
  intro c hc
  rw [jsIntToString] at hc
  by_cases h : n < 0
  · rw [if_pos h] at hc
    rcases List.mem_cons.mp hc with rfl | hmem
    · decide
    · obtain ⟨k, hk, rfl⟩ := natDigitsAux_mem _ _ c hmem
      exact digitChar_not_ws k hk
  · rw [if_neg h] at hc
    obtain ⟨k, hk, rfl⟩ := natDigitsAux_mem _ _ c hc
    exact digitChar_not_ws k hk

theorem natDigitsAux_ne_nil (fuel n : Nat) : natDigitsAux (fuel + 1) n ≠ [] := by
  rw [natDigitsAux]
  by_cases h : n < 10
  · rw [if_pos h]; simp
  · rw [if_neg h]; simp

theorem jsIntToString_ne_nil (n : Int) : (jsIntToString n).data ≠ [] := by
  rw [jsIntToString]
  by_cases h : n < 0
  · rw [if_pos h]
    exact List.cons_ne_nil _ _
  · rw [if_neg h]
    exact natDigitsAux_ne_nil _ _

/-- Both end characters of a string are present and not whitespace (so the
string is stable under `trim`). -/
def endsOk (s : String) : Prop :=
  ∃ a b, s.data.head? = some a ∧ isJsWs a = false ∧
    s.data.getLast? = some b ∧ isJsWs b = false

theorem trimStable_of_endsOk {s : String} (h : endsOk s) : jsTrim s = s := by
  obtain ⟨a, b, hh, ha, hl, hb⟩ := h
  exact congrArg String.mk (trimChars_of_ends hh ha hl hb)

theorem endsOk_of_all_not_ws {s : String} (hne : s.data ≠ [])
    (h : ∀ c ∈ s.data, isJsWs c = false) : endsOk s := by
  cases hd : s.data with
  | nil => exact absurd hd hne
  | cons c cs =>
    obtain ⟨b, hb⟩ :=
      Option.isSome_iff_exists.mp (List.getLast?_isSome.mpr (List.cons_ne_nil c cs))
    refine ⟨c, b, by rw [hd]; rfl, ?_, by rw [hd]; exact hb, ?_⟩
    · exact h c (by rw [hd]; exact List.mem_cons_self c cs)
    · exact h b (by rw [hd]; exact List.mem_of_mem_getLast? hb)

theorem prettyJson_endsOk (ind : Nat) (j : Json) : endsOk (prettyJson ind j) := by
  cases j with
  | null =>
    rw [show prettyJson ind Json.null = "null" by simp [prettyJson]]
    exact ⟨'n', 'l', by decide, by decide, by decide, by decide⟩
  | bool b =>
    cases b with
    | true =>
      rw [show prettyJson ind (Json.bool true) = "true" by simp [prettyJson]]
      exact ⟨'t', 'e', by decide, by decide, by decide, by decide⟩
    | false =>
      rw [show prettyJson ind (Json.bool false) = "false" by simp [prettyJson]]
      exact ⟨'f', 'e', by decide, by decide, by decide, by decide⟩
  | num n =>
    rw [show prettyJson ind (Json.num n) = jsIntToString n by simp [prettyJson]]
    exact endsOk_of_all_not_ws (jsIntToString_ne_nil n) (jsIntToString_chars n)
  | str s =>
    rw [show prettyJson ind (Json.str s) = escapeJsonString s by simp [prettyJson]]
    refine ⟨'"', '"', rfl, by decide, ?_, by decide⟩
    show ('"' :: ((s.data.map escapeJsonChar).flatten ++ ['"'])).getLast? = some '"'
    rw [← List.cons_append]
    exact List.getLast?_concat _
  | arr items =>
    cases items with
    | nil =>
      rw [show prettyJson ind (Json.arr []) = "[]" by simp [prettyJson]]
      exact ⟨'[', ']', by decide, by decide, by decide, by decide⟩
    | cons x xs =>
      refine ⟨'[', ']', ?_, by decide, ?_, by decide⟩
      · simp only [prettyJson]
        rfl
      · simp only [prettyJson, String.data_append]
        exact List.getLast?_concat _
  | obj fields =>
    cases fields with
    | nil =>
      rw [show prettyJson ind (Json.obj []) = "\x7b\x7d" by simp [prettyJson]]
      exact ⟨'\x7b', '\x7d', by decide, by decide, by decide, by decide⟩
    | cons f fs =>
      refine ⟨'\x7b', '\x7d', ?_, by decide, ?_, by decide⟩
      · simp only [prettyJson]
        rfl
      · simp only [prettyJson, String.data_append]
        exact List.getLast?_concat _

/-- Every string produced by the `typeof` dispatch is stable under `trim`. -/
theorem processOutputRaw_trimStable {v : JsValue} {po : String}
    (h : processOutputRaw v = some po) : jsTrim po = po := by
  cases v with
  | undefined => simp [processOutputRaw] at h
  | null =>
    rw [processOutputRaw] at h
    obtain rfl := Option.some.inj h
    exact trimStable_of_endsOk (prettyJson_endsOk 0 _)
  | bool b =>
    cases b with
    | true =>
      rw [processOutputRaw] at h
      obtain rfl := Option.some.inj h
      decide
    | false =>
      rw [processOutputRaw] at h
      obtain rfl := Option.some.inj h
      decide
  | num n =>
    rw [processOutputRaw] at h
    obtain rfl := Option.some.inj h
    exact congrArg String.mk (trimChars_of_all (jsIntToString_chars n))
  | str s =>
    rw [processOutputRaw] at h
    obtain rfl := Option.some.inj h
    exact jsTrim_idem s
  | arr items =>
    rw [processOutputRaw] at h
    obtain rfl := Option.some.inj h
    exact trimStable_of_endsOk (prettyJson_endsOk 0 _)
  | obj fields =>
    rw [processOutputRaw] at h
    obtain rfl := Option.some.inj h
    exact trimStable_of_endsOk (prettyJson_endsOk 0 _)

/-- Normalizing a trim-stable non-empty string only applies the size cap. -/
theorem processOutput_str_stable {u : String} (hst : jsTrim u = u) (hu : u ≠ "") :
    processOutput (.str u) =
      .ok (if outputLimit < u.length then jsTake u outputLimit ++ truncMarker else u) := by
  rw [processOutput]
  simp only [processOutputRaw]
  rw [hst]
  rw [if_neg (by simp [hst, hu])]

/-- C5: for every output value accepted by `processWebhookResponse`, the
normalized string is truncated to exactly the 100000-character threshold
with the fixed marker appended when it exceeds the threshold, is returned
unchanged when at or below it, and renormalizing any result of
normalization returns it unchanged (idempotence). -/
theorem c5_truncation_idempotent (v : JsValue) (po : String)
    (hraw : processOutputRaw v = some po) (hne : jsTrim po ≠ "") :
    (po.length ≤ outputLimit → processOutput v = .ok po) ∧
    (outputLimit < po.length →
      processOutput v = .ok (jsTake po outputLimit ++ truncMarker) ∧
      (jsTake po outputLimit).length = outputLimit) ∧
    (∀ s, processOutput v = .ok s → processOutput (.str s) = .ok s) := by
  have hstable : jsTrim po = po := processOutputRaw_trimStable hraw
  have hpo_ne : po ≠ "" := by
    intro h0
    subst h0
    exact hne rfl
  have hdlen : po.length = po.data.length := rfl
  have hout : processOutput v =
      .ok (if outputLimit < po.length then jsTake po outputLimit ++ truncMarker else po) := by
    rw [processOutput, hraw]
    dsimp only
    rw [if_neg (by simp [hpo_ne, hne])]
  refine ⟨fun hle => ?_, fun hgt => ⟨?_, ?_⟩, fun s hs => ?_⟩
  · rw [hout, if_neg (not_lt.mpr hle)]
  · rw [hout, if_pos hgt]
  · show (po.data.take outputLimit).length = outputLimit
    rw [List.length_take]
    exact Nat.min_eq_left (by omega)
  · rw [hout] at hs
    have hs' := Except.ok.inj hs
    by_cases hlen : outputLimit < po.length
    · rw [if_pos hlen] at hs'
      subst hs'
      have h1 : outputLimit ≤ po.data.length := by omega
      have hdata : (jsTake po outputLimit ++ truncMarker).data =
          po.data.take outputLimit ++ truncMarker.data := String.data_append _ _
      have htk_ne : po.data.take outputLimit ≠ [] := by
        intro h0
        have h2 : (po.data.take outputLimit).length = 0 := by rw [h0]; rfl
        rw [List.length_take, Nat.min_eq_left h1] at h2
        simp [outputLimit] at h2
      obtain ⟨a, t0, hpd⟩ : ∃ a t0, po.data = a :: t0 := by
        cases hpd : po.data with
        | nil => exact absurd (congrArg String.mk hpd) hpo_ne
        | cons a t0 => exact ⟨a, t0, rfl⟩
      have ha : isJsWs a = false := by
        refine trimChars_head_false (l := po.data) (t := t0) ?_
        have h2 : trimChars po.data = po.data := congrArg String.data hstable
        rw [h2, hpd]
      have hT_ends : endsOk (jsTake po outputLimit ++ truncMarker) := by
        refine ⟨a, ']', ?_, ha, ?_, by decide⟩
        · rw [hdata, head?_append_of_ne_nil htk_ne,
            head?_take (by norm_num [outputLimit]), hpd]
          rfl
        · rw [hdata, List.getLast?_append_of_ne_nil _ (by decide)]
          decide
      have hT_ne : jsTake po outputLimit ++ truncMarker ≠ "" := by
        intro h0
        have h2 := congrArg String.data h0
        rw [hdata] at h2
        simp at h2
        exact absurd h2.2 (by decide)
      have hTgt : outputLimit < (jsTake po outputLimit ++ truncMarker).length := by
        show outputLimit < (jsTake po outputLimit ++ truncMarker).data.length
        rw [hdata, List.length_append, List.length_take, Nat.min_eq_left h1]
        have h2 : 0 < truncMarker.data.length := by decide
        omega
      rw [processOutput_str_stable (trimStable_of_endsOk hT_ends) hT_ne, if_pos hTgt]
      congr 1
      have htake : jsTake (jsTake po outputLimit ++ truncMarker) outputLimit =
          jsTake po outputLimit := by
        show (⟨(jsTake po outputLimit ++ truncMarker).data.take outputLimit⟩ : String) =
          jsTake po outputLimit
        rw [hdata, List.take_append_of_le_length
            (by rw [List.length_take, Nat.min_eq_left h1]), List.take_take,
          Nat.min_self]
        rfl
      rw [htake]
    · rw [if_neg hlen] at hs'
      subst hs'
      rw [processOutput_str_stable hstable hpo_ne, if_neg hlen]

/-- C5 witness: a small string output is trimmed, unchanged by the size cap,
and renormalizing the result returns it unchanged. -/
theorem c5_truncation_idempotent_witness :
    processOutputRaw (.str " hello world ") = some "hello world" ∧
    processOutput (.str " hello world ") = .ok "hello world" ∧
    processOutput (.str "hello world") = .ok "hello world" := by
  refine ⟨by decide, ?_, ?_⟩
  · exact (c5_truncation_idempotent (.str " hello world ") "hello world"
      (by decide) (by decide)).1 (by decide)
  · exact (c5_truncation_idempotent (.str " hello world ") "hello world"
      (by decide) (by decide)).2.2 "hello world"
      ((c5_truncation_idempotent (.str " hello world ") "hello world"
        (by decide) (by decide)).1 (by decide))

end Bridge
